import Mathlib

/-!
Shallow embedding of the in-memory task-list HTTP service (`src/main.go`).

The Go program keeps a `TaskStore` with a `map[int]Task` and a `nextID`
counter, and five HTTP handlers (`handleCreateTask`, `handleGetTasks`,
`handleUpdateTask`, `handleDeleteTask`, `handleMarkTaskAsDone`) dispatched
by `main`'s `http.HandleFunc` registrations.

Modelling decisions:
* Go's `map[int]Task` is embedded as an association list `List (Int × Task)`
  with lookup/insert/delete operations (`mapGet`, `mapSet`, `mapDel`);
  Go map iteration order is unspecified, the list order stands in for it.
* Go's `int` is embedded as `Int` (the program never comes near 64-bit
  overflow: ids start at 1 and grow by 1 per create).
* JSON decoding of a request body into a `Task` is stdlib behaviour and is
  embedded at its boundary: a handler receives `Option Task`, `none`
  meaning the decode failed (`json.NewDecoder(...).Decode` returned an
  error), `some t` meaning it produced the struct `t` (absent fields are
  Go zero values, which the `Task` fields carry explicitly).
* Go string slicing `s[low:high]` traps (runtime panic) when the bounds
  are out of range; `goSliceString` returns `none` in that case and the
  handler result is the `Response.crash` outcome.
* The mutex only serialises handlers; each handler's critical section is a
  pure state transformation, embedded as explicit state passing.
-/

namespace TodoList

/-- A task record: `Task` struct of `src/main.go` (fields `ID`, `Title`,
`Completed` with JSON names `id`, `title`, `completed`). -/
structure Task where
  id : Int
  title : String
  completed : Bool
deriving Repr, DecidableEq

/-- The store: `TaskStore` struct of `src/main.go` (`tasks map[int]Task`
and `nextID int`); the embedded `tasks` is an association list. -/
structure TaskStore where
  tasks : List (Int × Task)
  nextID : Int
deriving Repr, DecidableEq

/-- Go map read `m[k]` with its ok-flag, as an option. -/
def mapGet : List (Int × Task) → Int → Option Task
  | [], _ => none
  | p :: rest, k => if p.1 = k then some p.2 else mapGet rest k

/-- Go map write `m[k] = v`: replace the binding of `k` if present,
otherwise add it. -/
def mapSet : List (Int × Task) → Int → Task → List (Int × Task)
  | [], k, v => [(k, v)]
  | p :: rest, k, v => if p.1 = k then (k, v) :: rest else p :: mapSet rest k v

/-- Go `delete(m, k)`: remove the binding of `k` if present. -/
def mapDel : List (Int × Task) → Int → List (Int × Task)
  | [], _ => []
  | p :: rest, k => if p.1 = k then rest else p :: mapDel rest k

/-- The `NewTaskStore` constructor (lines 25-30): empty map, counter 1. -/
def NewTaskStore : TaskStore :=
  { tasks := [], nextID := 1 }

/-- Critical section of `handleCreateTask` (lines 55-59): overwrite the
decoded task's `ID` with `nextID`, insert it, increment the counter.
Returns the new store and the stored task (which the handler echoes). -/
def createTask (s : TaskStore) (task : Task) : TaskStore × Task :=
  let task2 : Task := { task with id := s.nextID }
  ({ tasks := mapSet s.tasks task2.id task2, nextID := s.nextID + 1 }, task2)

/-- Critical section of `handleUpdateTask` (lines 102-113): if `id` is
present, replace the stored task's title by the decoded title when that is
non-empty, replace `completed` unconditionally, store and return the
result; otherwise leave the store alone and report not-found (`none`). -/
def updateTask (s : TaskStore) (id : Int) (updatedTask : Task) :
    TaskStore × Option Task :=
  match mapGet s.tasks id with
  | some existingTask =>
      let e1 : Task :=
        if updatedTask.title ≠ "" then { existingTask with title := updatedTask.title }
        else existingTask
      let e2 : Task := { e1 with completed := updatedTask.completed }
      ({ s with tasks := mapSet s.tasks id e2 }, some e2)
  | none => (s, none)

/-- Critical section of `handleMarkTaskAsDone` (lines 157-165): if `id` is
present, set `completed` to `true`, store and return the result; otherwise
leave the store alone and report not-found. -/
def markDone (s : TaskStore) (id : Int) : TaskStore × Option Task :=
  match mapGet s.tasks id with
  | some task =>
      let task2 : Task := { task with completed := true }
      ({ s with tasks := mapSet s.tasks id task2 }, some task2)
  | none => (s, none)

/-- Critical section of `handleDeleteTask` (lines 132-139): if `id` is
present, remove it and report success (`true`); otherwise leave the store
alone and report not-found (`false`). -/
def deleteTask (s : TaskStore) (id : Int) : TaskStore × Bool :=
  match mapGet s.tasks id with
  | some _ => ({ s with tasks := mapDel s.tasks id }, true)
  | none => (s, false)

/-- Critical section of `handleGetTasks` (lines 71-76): collect all task
values of the map into a slice (iteration order unspecified in Go; here,
list order). -/
def listAll (s : TaskStore) : List Task :=
  s.tasks.map Prod.snd

/-- Model of Go's `strconv.Atoi`: an optional sign followed by at least one
decimal digit, anything else is an error (`none`). Word-size overflow is not
modelled; no claim involves ids near 2^63. -/
def goAtoi (s : String) : Option Int :=
  let signDigits : Int × List Char :=
    match s.data with
    | '+' :: rest => (1, rest)
    | '-' :: rest => (-1, rest)
    | cs => (1, cs)
  if signDigits.2 ≠ [] ∧ signDigits.2.all Char.isDigit then
    some (signDigits.1 *
      Int.ofNat (signDigits.2.foldl (fun acc c => 10 * acc + (c.toNat - 48)) 0))
  else none

/-- Go string slicing `s[low:high]`: the substring when
`0 ≤ low ≤ high ≤ len(s)`, otherwise a runtime panic, modelled as `none`.
All paths the program slices are ASCII, so byte indices and character
indices agree. -/
def goSliceString (s : String) (low high : Nat) : Option String :=
  if low ≤ high ∧ high ≤ s.data.length then
    some (String.mk ((s.data.take high).drop low))
  else none

/-- Outcome of one request, as far as the claims are concerned: the status
code written (200 for handlers that only call `Encode`/`Fprintf`), the JSON
payload when there is one, or a Go runtime panic. A `jsonArr` payload of
`none` would be a nil slice, which Go's encoder serialises as `null`;
`some ts` is a non-nil slice serialised as an array. -/
inductive Response where
  | text (code : Nat)
  | json (code : Nat) (t : Task)
  | jsonArr (code : Nat) (ts : Option (List Task))
  | crash
deriving Repr, DecidableEq

/-- The `handleRoot` handler (lines 34-40): 404 for any path other than
`/`, otherwise the welcome text (status 200). The method is never
inspected. -/
def handleRoot (s : TaskStore) (path : String) : TaskStore × Response :=
  if path ≠ "/" then (s, Response.text 404)
  else (s, Response.text 200)

/-- The `handleCreateTask` handler (lines 42-63): 405 on a non-POST
method, 400 when the body fails to decode, otherwise run the create
critical section and answer 201 with the created task. -/
def handleCreateTask (s : TaskStore) (method : String) (body : Option Task) :
    TaskStore × Response :=
  if method ≠ "POST" then (s, Response.text 405)
  else
    match body with
    | none => (s, Response.text 400)
    | some task =>
        let r := createTask s task
        (r.1, Response.json 201 r.2)

/-- The `handleGetTasks` handler (lines 65-80): 405 on a non-GET method,
otherwise 200 with the collected slice. The slice is built with `make`,
hence non-nil (`some`), even when empty. -/
def handleGetTasks (s : TaskStore) (method : String) : TaskStore × Response :=
  if method ≠ "GET" then (s, Response.text 405)
  else (s, Response.jsonArr 200 (some (listAll s)))

/-- The `handleUpdateTask` handler (lines 82-117): 405 on a non-PUT
method; extract `path[11:]` (11 = len("/api/tasks/")); 400 when that is
not an integer; 400 when the body fails to decode; then the update
critical section, answering 200 with the record or 404. -/
def handleUpdateTask (s : TaskStore) (method path : String) (body : Option Task) :
    TaskStore × Response :=
  if method ≠ "PUT" then (s, Response.text 405)
  else
    match goSliceString path 11 path.data.length with
    | none => (s, Response.crash)
    | some idStr =>
        match goAtoi idStr with
        | none => (s, Response.text 400)
        | some id =>
            match body with
            | none => (s, Response.text 400)
            | some updatedTask =>
                match updateTask s id updatedTask with
                | (s2, some r) => (s2, Response.json 200 r)
                | (s2, none) => (s2, Response.text 404)

/-- The `handleDeleteTask` handler (lines 119-142): 405 on a non-DELETE
method; extract `path[11:]`; 400 when that is not an integer; then the
delete critical section, answering 204 (no body) or 404. -/
def handleDeleteTask (s : TaskStore) (method path : String) :
    TaskStore × Response :=
  if method ≠ "DELETE" then (s, Response.text 405)
  else
    match goSliceString path 11 path.data.length with
    | none => (s, Response.crash)
    | some idStr =>
        match goAtoi idStr with
        | none => (s, Response.text 400)
        | some id =>
            match deleteTask s id with
            | (s2, true) => (s2, Response.text 204)
            | (s2, false) => (s2, Response.text 404)

/-- The `handleMarkTaskAsDone` handler (lines 144-168): 405 on a non-PUT
method; extract `path[11 : len(path)-5]` (5 = len("/done")); 400 when
that is not an integer; then the mark-done critical section, answering
200 with the record or 404. The slice bounds are not checked by the code:
`11 > len(path)-5` is a runtime panic. -/
def handleMarkTaskAsDone (s : TaskStore) (method path : String) :
    TaskStore × Response :=
  if method ≠ "PUT" then (s, Response.text 405)
  else
    match goSliceString path 11 (path.data.length - 5) with
    | none => (s, Response.crash)
    | some idStr =>
        match goAtoi idStr with
        | none => (s, Response.text 400)
        | some id =>
            match markDone s id with
            | (s2, some task) => (s2, Response.json 200 task)
            | (s2, none) => (s2, Response.text 404)

/-- Whether `pre` is a prefix of `s`, written on the character lists. -/
def goHasPrefix (s pre : String) : Bool :=
  decide (s.data.take pre.data.length = pre.data)

/-- The routing set up in `main` (lines 170-196): `http.ServeMux` patterns
`/api/tasks` (exact), `/api/tasks/` (prefix) and `/` (everything else),
each with its method switch. The mark-done route is chosen when
`len(path) > 11` and the last five characters are `/done` (line 186). -/
def serveMux (s : TaskStore) (method path : String) (body : Option Task) :
    TaskStore × Response :=
  if path = "/api/tasks" then
    if method = "GET" then handleGetTasks s method
    else if method = "POST" then handleCreateTask s method body
    else (s, Response.text 405)
  else if goHasPrefix path "/api/tasks/" then
    if method = "PUT" then
      if path.data.length > 11 ∧
          path.data.drop (path.data.length - 5) = "/done".data then
        handleMarkTaskAsDone s method path
      else handleUpdateTask s method path body
    else if method = "DELETE" then handleDeleteTask s method path
    else (s, Response.text 405)
  else handleRoot s path

/-- One mutating request's store effect, as dispatched by the router: the
decoded body for a create, the parsed id (and decoded body) for the
others. -/
inductive Op where
  | create (body : Task)
  | update (id : Int) (body : Task)
  | markDone (id : Int)
  | delete (id : Int)
deriving Repr, DecidableEq

/-- Apply one operation's critical section to the store. -/
def applyOp (s : TaskStore) : Op → TaskStore
  | Op.create body => (createTask s body).1
  | Op.update id body => (updateTask s id body).1
  | Op.markDone id => (markDone s id).1
  | Op.delete id => (deleteTask s id).1

/-- Run a sequence of operations left to right. -/
def runOps (s : TaskStore) : List Op → TaskStore
  | [] => s
  | op :: rest => runOps (applyOp s op) rest

/-- The ids issued during a run, in order: each create issues the store's
current `nextID`; the other operations issue nothing. -/
def runIssued (s : TaskStore) : List Op → List Int
  | [] => []
  | Op.create body :: rest =>
      s.nextID :: runIssued (applyOp s (Op.create body)) rest
  | op :: rest => runIssued (applyOp s op) rest

/-- Run a sequence of create requests (their decoded bodies), collecting
the created tasks in order. -/
def runCreates (s : TaskStore) : List Task → TaskStore × List Task
  | [] => (s, [])
  | body :: rest =>
      let r := createTask s body
      let r2 := runCreates r.1 rest
      (r2.1, r.2 :: r2.2)

/-- Every stored task's id equals its map key (the spec's data-model
invariant). -/
def KeysMatch (s : TaskStore) : Prop :=
  ∀ p ∈ s.tasks, (Prod.snd p).id = p.1

/-- The list `[start, start + 1, ..., start + n - 1]`: the ids a faultless
counter starting at `start` hands out over `n` creates. -/
def expectedIds (start : Int) : Nat → List Int
  | 0 => []
  | n + 1 => start :: expectedIds (start + 1) n

/-- JSON encoding of one task, as Go's `encoding/json` renders the `Task`
struct (JSON string escaping of the title is elided; every title appearing
in a theorem below is plain ASCII without escapes). -/
def encodeTask (t : Task) : String :=
  "\x7b\"id\":" ++ toString t.id ++ ",\"title\":\"" ++ t.title ++
    "\",\"completed\":" ++ (cond t.completed "true" "false") ++ "\x7d"

/-- JSON encoding of a Go `[]Task` slice: a nil slice (`none`) renders as
`null`, a non-nil slice renders as a comma-separated array. -/
def encodeTaskSlice : Option (List Task) → String
  | none => "null"
  | some ts => "[" ++ String.intercalate "," (ts.map encodeTask) ++ "]"

/-- Concrete operation run used to instantiate the invariant: two creates
followed by a delete of the first id. -/
def demoOps : List Op :=
  [Op.create { id := 0, title := "a", completed := false },
   Op.create { id := 0, title := "b", completed := false },
   Op.delete 1]

/-- Concrete create bodies used to instantiate the id-sequence theorem. -/
def demoBodies : List Task :=
  [{ id := 7, title := "x", completed := false },
   { id := 7, title := "y", completed := true }]

/-- Concrete one-task store used to instantiate the update theorem. -/
def demoStoreA : TaskStore :=
  { tasks := [(1, { id := 1, title := "a", completed := false })], nextID := 2 }

/-- Concrete one-task store used to instantiate the mark-done theorem. -/
def demoStoreB : TaskStore :=
  { tasks := [(1, { id := 1, title := "t", completed := false })], nextID := 2 }

section MapLemmas

theorem mapGet_mem {m : List (Int × Task)} {k : Int} {v : Task}
    (h : mapGet m k = some v) : (k, v) ∈ m := by
  induction m with
  | nil => simp [mapGet] at h
  | cons p rest ih =>
      by_cases hk : p.1 = k
      · simp [mapGet, hk] at h
        cases p
        simp_all
      · simp [mapGet, hk] at h
        exact List.mem_cons_of_mem _ (ih h)

theorem mem_mapSet {m : List (Int × Task)} {k : Int} {v : Task}
    {p : Int × Task} (h : p ∈ mapSet m k v) : p = (k, v) ∨ p ∈ m := by
  induction m with
  | nil => simp [mapSet] at h; simp [h]
  | cons q rest ih =>
      by_cases hk : q.1 = k
      · simp [mapSet, hk] at h
        rcases h with h | h
        · exact Or.inl h
        · exact Or.inr (List.mem_cons_of_mem _ h)
      · simp [mapSet, hk] at h
        rcases h with h | h
        · exact Or.inr (by simp [h])
        · rcases ih h with h2 | h2
          · exact Or.inl h2
          · exact Or.inr (List.mem_cons_of_mem _ h2)

theorem mem_mapDel {m : List (Int × Task)} {k : Int}
    {p : Int × Task} (h : p ∈ mapDel m k) : p ∈ m := by
  induction m with
  | nil => simp [mapDel] at h
  | cons q rest ih =>
      by_cases hk : q.1 = k
      · simp [mapDel, hk] at h
        exact List.mem_cons_of_mem _ h
      · simp [mapDel, hk] at h
        rcases h with h | h
        · simp [h]
        · exact List.mem_cons_of_mem _ (ih h)

theorem mapGet_mapSet_self (m : List (Int × Task)) (k : Int) (v : Task) :
    mapGet (mapSet m k v) k = some v := by
  induction m with
  | nil => simp [mapSet, mapGet]
  | cons q rest ih =>
      by_cases hk : q.1 = k
      · simp [mapSet, hk, mapGet]
      · simp [mapSet, hk, mapGet, ih]

theorem mapSet_mapSet (m : List (Int × Task)) (k : Int) (a b : Task) :
    mapSet (mapSet m k a) k b = mapSet m k b := by
  induction m with
  | nil => simp [mapSet]
  | cons q rest ih =>
      by_cases hk : q.1 = k
      · simp [mapSet, hk]
      · simp [mapSet, hk, ih]

end MapLemmas

section InvariantLemmas

theorem applyOp_nextID_le (s : TaskStore) (op : Op) :
    s.nextID ≤ (applyOp s op).nextID := by
  cases op with
  | create body => simp [applyOp, createTask]
  | update id body =>
      simp only [applyOp, updateTask]
      rcases h : mapGet s.tasks id with _ | t <;> simp
  | markDone id =>
      simp only [applyOp, markDone]
      rcases h : mapGet s.tasks id with _ | t <;> simp
  | delete id =>
      simp only [applyOp, deleteTask]
      rcases h : mapGet s.tasks id with _ | t <;> simp

theorem runOps_cons (s : TaskStore) (op : Op) (rest : List Op) :
    runOps s (op :: rest) = runOps (applyOp s op) rest := rfl

theorem runOps_nextID_le (s : TaskStore) (ops : List Op) :
    s.nextID ≤ (runOps s ops).nextID := by
  induction ops generalizing s with
  | nil => simp [runOps]
  | cons op rest ih =>
      exact le_trans (applyOp_nextID_le s op) (ih (applyOp s op))

theorem keysMatch_applyOp {s : TaskStore} (h : KeysMatch s) (op : Op) :
    KeysMatch (applyOp s op) := by
  cases op with
  | create body =>
      intro p hp
      simp only [applyOp, createTask] at hp
      rcases mem_mapSet hp with h2 | h2
      · subst h2; rfl
      · exact h p h2
  | update id body =>
      rcases hget : mapGet s.tasks id with _ | t
      · intro p hp
        simp only [applyOp, updateTask, hget] at hp
        exact h p hp
      · intro p hp
        simp only [applyOp, updateTask, hget] at hp
        rcases mem_mapSet hp with h2 | h2
        · have ht : t.id = id := h _ (mapGet_mem hget)
          subst h2
          by_cases hb : body.title = "" <;> simp [hb, ht]
        · exact h p h2
  | markDone id =>
      rcases hget : mapGet s.tasks id with _ | t
      · intro p hp
        simp only [applyOp, markDone, hget] at hp
        exact h p hp
      · intro p hp
        simp only [applyOp, markDone, hget] at hp
        rcases mem_mapSet hp with h2 | h2
        · have ht : t.id = id := h _ (mapGet_mem hget)
          subst h2
          simp [ht]
        · exact h p h2
  | delete id =>
      rcases hget : mapGet s.tasks id with _ | t
      · intro p hp
        simp only [applyOp, deleteTask, hget] at hp
        exact h p hp
      · intro p hp
        simp only [applyOp, deleteTask, hget] at hp
        exact h p (mem_mapDel hp)

theorem keysMatch_runOps {s : TaskStore} (h : KeysMatch s) (ops : List Op) :
    KeysMatch (runOps s ops) := by
  induction ops generalizing s with
  | nil => simpa [runOps] using h
  | cons op rest ih => simpa [runOps] using ih (keysMatch_applyOp h op)

theorem runIssued_lt_nextID (s : TaskStore) (ops : List Op) :
    ∀ i ∈ runIssued s ops, i < (runOps s ops).nextID := by
  induction ops generalizing s with
  | nil => simp [runIssued]
  | cons op rest ih =>
      cases op with
      | create body =>
          intro i hi
          simp only [runIssued] at hi
          rcases List.mem_cons.mp hi with hi | hi
          · subst hi
            have h1 : (applyOp s (Op.create body)).nextID = s.nextID + 1 := by
              simp [applyOp, createTask]
            have h2 := runOps_nextID_le (applyOp s (Op.create body)) rest
            rw [runOps_cons]
            omega
          · simpa [runOps_cons] using ih (applyOp s (Op.create body)) i hi
      | update id body =>
          intro i hi
          simp only [runIssued] at hi
          simpa [runOps_cons] using ih (applyOp s (Op.update id body)) i hi
      | markDone id =>
          intro i hi
          simp only [runIssued] at hi
          simpa [runOps_cons] using ih (applyOp s (Op.markDone id)) i hi
      | delete id =>
          intro i hi
          simp only [runIssued] at hi
          simpa [runOps_cons] using ih (applyOp s (Op.delete id)) i hi

end InvariantLemmas

section ExpectedIdsLemmas

theorem expectedIds_length (start : Int) (n : Nat) :
    (expectedIds start n).length = n := by
  induction n generalizing start with
  | zero => simp [expectedIds]
  | succ n ih => simp [expectedIds, ih]

theorem mem_expectedIds {start i : Int} {n : Nat} :
    i ∈ expectedIds start n ↔ start ≤ i ∧ i < start + n := by
  induction n generalizing start with
  | zero => simp [expectedIds]
  | succ n ih =>
      simp only [expectedIds, List.mem_cons, ih]
      constructor
      · rintro (rfl | ⟨h1, h2⟩) <;> constructor <;> omega
      · rintro ⟨h1, h2⟩
        by_cases hi : i = start
        · exact Or.inl hi
        · right; constructor <;> omega

theorem expectedIds_nodup (start : Int) (n : Nat) :
    (expectedIds start n).Nodup := by
  induction n generalizing start with
  | zero => simp [expectedIds]
  | succ n ih =>
      simp only [expectedIds, List.nodup_cons]
      refine ⟨fun hmem => ?_, ih (start + 1)⟩
      have := mem_expectedIds.mp hmem
      omega

theorem expectedIds_getElem (start : Int) (n : Nat) :
    ∀ i, i < n → (expectedIds start n).get? i = some (start + i) := by
  induction n generalizing start with
  | zero => intro i hi; omega
  | succ n ih =>
      intro i hi
      cases i with
      | zero => simp [expectedIds]
      | succ i =>
          have := ih (start + 1) i (by omega)
          simp only [expectedIds, List.get?_cons_succ, this]
          congr 1
          push_cast
          ring

end ExpectedIdsLemmas

theorem runCreates_map_id (s : TaskStore) (bodies : List Task) :
    (runCreates s bodies).2.map Task.id = expectedIds s.nextID bodies.length ∧
    (runCreates s bodies).1.nextID = s.nextID + bodies.length := by
  induction bodies generalizing s with
  | nil => simp [runCreates, expectedIds]
  | cons body rest ih =>
      have h := ih (createTask s body).1
      have hnext : (createTask s body).1.nextID = s.nextID + 1 := by
        simp [createTask]
      rw [hnext] at h
      refine ⟨?_, ?_⟩
      · simp only [runCreates, List.map_cons, expectedIds, h.1]
        simp [createTask]
      · simp only [runCreates, h.2, List.length_cons]
        push_cast
        ring

section PathLemmas

/-- Extracting `path[11:]` from `/api/tasks/` followed by an id segment
yields the id segment (the update and delete handlers' extraction). -/
theorem goSlice_update_path (idStr : String) :
    goSliceString ("/api/tasks/" ++ idStr) 11
      ("/api/tasks/" ++ idStr).data.length = some idStr := by
  have hdata : ("/api/tasks/" ++ idStr).data = "/api/tasks/".data ++ idStr.data :=
    String.data_append _ _
  have h11 : ("/api/tasks/".data).length = 11 := rfl
  simp only [goSliceString, hdata]
  rw [if_pos]
  · rw [List.take_length]
    have hdrop : ("/api/tasks/".data ++ idStr.data).drop 11 = idStr.data := by
      rw [← h11]
      exact List.drop_left _ _
    rw [hdrop]
  · constructor
    · simp [h11]
    · exact le_rfl

/-- Extracting `path[11 : len(path)-5]` from `/api/tasks/`, an id segment
and `/done` yields the id segment (the mark-done handler's extraction). -/
theorem goSlice_done_path (idStr : String) :
    goSliceString ("/api/tasks/" ++ idStr ++ "/done") 11
      (("/api/tasks/" ++ idStr ++ "/done").data.length - 5) = some idStr := by
  have hdata : ("/api/tasks/" ++ idStr ++ "/done").data
      = ("/api/tasks/".data ++ idStr.data) ++ "/done".data := by
    rw [String.data_append, String.data_append]
  have hpre : ("/api/tasks/".data).length = 11 := rfl
  have hsuf : ("/done".data).length = 5 := rfl
  have hmid : ("/api/tasks/".data ++ idStr.data).length = 11 + idStr.data.length := by
    rw [List.length_append, hpre]
  have hlen : ("/api/tasks/" ++ idStr ++ "/done").data.length
      = 11 + idStr.data.length + 5 := by
    rw [hdata, List.length_append, hmid, hsuf]
  rw [goSliceString, if_pos]
  · rw [hdata]
    have h5 : (("/api/tasks/".data ++ idStr.data) ++ "/done".data).length - 5
        = ("/api/tasks/".data ++ idStr.data).length := by
      rw [List.length_append, hsuf]
      omega
    rw [h5, List.take_left]
    have hdrop : ("/api/tasks/".data ++ idStr.data).drop 11 = idStr.data := by
      rw [← hpre]
      exact List.drop_left _ _
    rw [hdrop]
  · refine ⟨?_, ?_⟩ <;> omega

end PathLemmas

/-- A bracketed rendering is never the rendering `null` of a nil slice. -/
theorem bracket_ne_null (x : String) : ("[" ++ x ++ "]" : String) ≠ "null" := by
  intro h
  have hd := congrArg String.data h
  rw [String.data_append, String.data_append] at hd
  have h1 : "[".data = ['['] := rfl
  have h3 : "null".data = ['n', 'u', 'l', 'l'] := rfl
  rw [h1, h3] at hd
  simp at hd

/-- C1: for every task present in the store, `Update(id, newTitle,
newCompleted)` replaces `completed` unconditionally, replaces `title` only
when the new title is non-empty (an empty new title leaves it unchanged),
and returns exactly the record it stored. -/
theorem updateTask_spec (s : TaskStore) (id : Int) (u t : Task)
    (h : mapGet s.tasks id = some t) :
    updateTask s id u =
      ({ s with
           tasks := mapSet s.tasks id
             ({ id := t.id
                title := if u.title = "" then t.title else u.title
                completed := u.completed }) },
       some { id := t.id
              title := if u.title = "" then t.title else u.title
              completed := u.completed }) := by
  simp only [updateTask, h]
  by_cases hb : u.title = "" <;> simp [hb]

/-- Witness for C1: updating task 1 of a one-task store with an empty
title and `completed = true` changes only the completed flag. -/
theorem updateTask_spec_witness :
    updateTask demoStoreA 1 { id := 0, title := "", completed := true } =
      ({ tasks := [(1, { id := 1, title := "a", completed := true })], nextID := 2 },
       some { id := 1, title := "a", completed := true }) := by
  have h := updateTask_spec demoStoreA 1 { id := 0, title := "", completed := true }
    { id := 1, title := "a", completed := false } (by decide)
  rw [h]
  decide

/-- C2: in every store state reachable from the fresh store, every task's
id field equals its map key, and every id ever issued (deleted ones
included) is strictly below the next-id counter. -/
theorem reachable_store_invariant (ops : List Op) :
    (∀ p ∈ (runOps NewTaskStore ops).tasks, (Prod.snd p).id = p.1) ∧
    (∀ i ∈ runIssued NewTaskStore ops, i < (runOps NewTaskStore ops).nextID) := by
  refine ⟨keysMatch_runOps ?_ ops, runIssued_lt_nextID NewTaskStore ops⟩
  intro p hp
  simp [NewTaskStore] at hp

/-- Witness for C2: after two creates and a delete, the surviving task's
id equals its key and the deleted id 1 stays below the counter. -/
theorem reachable_store_invariant_witness :
    ({ id := 2, title := "b", completed := false } : Task).id = 2 ∧
    (1 : Int) < (runOps NewTaskStore demoOps).nextID :=
  ⟨(reachable_store_invariant demoOps).1
      (2, { id := 2, title := "b", completed := false }) (by decide),
   (reachable_store_invariant demoOps).2 1 (by decide)⟩

/-- C3: a sequence of creates from the fresh store hands out exactly the
ids 1, 2, ..., n (the i-th create, 0-based, returns id i+1), the ids are
pairwise distinct and the counter, which starts at 1, ends at n+1. -/
theorem create_ids_sequential (bodies : List Task) :
    NewTaskStore.nextID = 1 ∧
    (runCreates NewTaskStore bodies).2.map Task.id = expectedIds 1 bodies.length ∧
    ((runCreates NewTaskStore bodies).2.map Task.id).Nodup ∧
    (∀ i, i < bodies.length →
        ((runCreates NewTaskStore bodies).2.map Task.id).get? i = some ((i : Int) + 1)) ∧
    (runCreates NewTaskStore bodies).1.nextID = 1 + bodies.length := by
  have h := runCreates_map_id NewTaskStore bodies
  have h1 : (runCreates NewTaskStore bodies).2.map Task.id = expectedIds 1 bodies.length := h.1
  refine ⟨rfl, h1, ?_, ?_, h.2⟩
  · rw [h1]
    exact expectedIds_nodup 1 bodies.length
  · intro i hi
    rw [h1]
    rw [expectedIds_getElem 1 bodies.length i hi]
    congr 1
    omega

/-- Witness for C3: the second of two creates returns id 2. -/
theorem create_ids_sequential_witness :
    ((runCreates NewTaskStore demoBodies).2.map Task.id).get? 1 = some 2 := by
  have h := (create_ids_sequential demoBodies).2.2.2.1 1 (by decide)
  simpa using h

/-- C4: for every id present in the store, `MarkDone` sets `completed` to
`true` without touching the title, and it is idempotent: a second call
yields the same store and the same returned record as the first. -/
theorem markDone_spec (s : TaskStore) (id : Int) (t : Task)
    (h : mapGet s.tasks id = some t) :
    markDone s id =
      ({ s with tasks := mapSet s.tasks id ({ t with completed := true }) },
       some { t with completed := true }) ∧
    (markDone s id).2 = some { id := t.id, title := t.title, completed := true } ∧
    markDone (markDone s id).1 id = markDone s id := by
  have h1 : markDone s id =
      ({ s with tasks := mapSet s.tasks id ({ t with completed := true }) },
       some { t with completed := true }) := by
    simp only [markDone, h]
  refine ⟨h1, by rw [h1], ?_⟩
  rw [h1]
  have h2 : mapGet (mapSet s.tasks id ({ t with completed := true })) id
      = some { t with completed := true } := mapGet_mapSet_self _ _ _
  simp only [markDone, h2, mapSet_mapSet]

/-- Witness for C4: marking task 1 done twice equals marking it once. -/
theorem markDone_spec_witness :
    markDone (markDone demoStoreB 1).1 1 = markDone demoStoreB 1 :=
  (markDone_spec demoStoreB 1 { id := 1, title := "t", completed := false }
    (by decide)).2.2

/-- C5 (refuted, code bug): a PUT for the path `/api/tasks/done` (prefix
`/api/tasks/` and suffix `/done` with an empty segment in between) is
routed to the mark-done handler, whose extraction `path[11:10]` is out of
bounds: the outcome is a runtime panic, not the 400 the claim states. -/
theorem markDone_path_out_of_bounds :
    serveMux NewTaskStore "PUT" "/api/tasks/done" none = (NewTaskStore, Response.crash) ∧
    goSliceString "/api/tasks/done" 11 ("/api/tasks/done".data.length - 5) = none ∧
    serveMux NewTaskStore "PUT" "/api/tasks/done" none ≠ (NewTaskStore, Response.text 400) := by
  refine ⟨?_, ?_, ?_⟩ <;> decide

/-- C6: when no task has the given id, update, mark-done and delete leave
the store (mapping and counter) unchanged, and their handlers answer
404. -/
theorem notFound_unchanged (s : TaskStore) (id : Int) (u : Task) (idStr : String)
    (hparse : goAtoi idStr = some id)
    (h : mapGet s.tasks id = none) :
    updateTask s id u = (s, none) ∧
    markDone s id = (s, none) ∧
    deleteTask s id = (s, false) ∧
    handleUpdateTask s "PUT" ("/api/tasks/" ++ idStr) (some u) = (s, Response.text 404) ∧
    handleMarkTaskAsDone s "PUT" ("/api/tasks/" ++ idStr ++ "/done") = (s, Response.text 404) ∧
    handleDeleteTask s "DELETE" ("/api/tasks/" ++ idStr) = (s, Response.text 404) := by
  have h1 : updateTask s id u = (s, none) := by simp only [updateTask, h]
  have h2 : markDone s id = (s, none) := by simp only [markDone, h]
  have h3 : deleteTask s id = (s, false) := by simp only [deleteTask, h]
  refine ⟨h1, h2, h3, ?_, ?_, ?_⟩
  · simp only [handleUpdateTask, goSlice_update_path, hparse, h1]
    rfl
  · simp only [handleMarkTaskAsDone, goSlice_done_path, hparse, h2]
    rfl
  · simp only [handleDeleteTask, goSlice_update_path, hparse, h3]
    rfl

/-- Witness for C6: updating the missing id 999 on the fresh store
answers 404 and leaves the store unchanged. -/
theorem notFound_unchanged_witness :
    handleUpdateTask NewTaskStore "PUT" ("/api/tasks/" ++ "999")
      (some { id := 0, title := "x", completed := true }) = (NewTaskStore, Response.text 404) :=
  (notFound_unchanged NewTaskStore 999 { id := 0, title := "x", completed := true } "999"
    (by decide) (by decide)).2.2.2.1

/-- C7: a POST to /api/tasks whose body fails to decode answers 400 and
leaves the store unchanged: nothing is inserted, the counter stays, and
the next create still receives the id it would have received anyway. -/
theorem create_invalid_body (s : TaskStore) (t : Task) :
    serveMux s "POST" "/api/tasks" none = (s, Response.text 400) ∧
    (serveMux s "POST" "/api/tasks" none).1.nextID = s.nextID ∧
    (createTask (serveMux s "POST" "/api/tasks" none).1 t).2.id = s.nextID := by
  have h : serveMux s "POST" "/api/tasks" none = (s, Response.text 400) := by
    simp [serveMux, handleCreateTask]
  refine ⟨h, ?_, ?_⟩
  · rw [h]
  · rw [h]
    rfl

/-- Witness for C7: on the fresh store a failed decode answers 400 and
changes nothing. -/
theorem create_invalid_body_witness :
    serveMux NewTaskStore "POST" "/api/tasks" none = (NewTaskStore, Response.text 400) :=
  (create_invalid_body NewTaskStore { id := 0, title := "", completed := false }).1

/-- C8: immediately after initialization the listing is the empty
sequence, serialized as the empty JSON array (never null); in general the
listing holds exactly the tasks in the mapping. -/
theorem listAll_spec (s : TaskStore) (t : Task) :
    listAll NewTaskStore = [] ∧
    handleGetTasks s "GET" = (s, Response.jsonArr 200 (some (listAll s))) ∧
    encodeTaskSlice (some (listAll NewTaskStore)) = "[]" ∧
    encodeTaskSlice (some (listAll s)) ≠ encodeTaskSlice none ∧
    (t ∈ listAll s ↔ ∃ k, (k, t) ∈ s.tasks) := by
  refine ⟨rfl, ?_, by decide, ?_, ?_⟩
  · simp [handleGetTasks]
  · simp only [encodeTaskSlice]
    exact bracket_ne_null _
  · simp only [listAll]
    constructor
    · intro ht
      rcases List.mem_map.mp ht with ⟨p, hp, hpt⟩
      cases p
      cases hpt
      exact ⟨_, hp⟩
    · rintro ⟨k, hk⟩
      exact List.mem_map.mpr ⟨(k, t), hk, rfl⟩

/-- Witness for C8: the fresh store lists no tasks. -/
theorem listAll_spec_witness :
    listAll NewTaskStore = [] :=
  (listAll_spec NewTaskStore { id := 1, title := "z", completed := false }).1

/-- Counterexample to C9: a POST to the root path `/` is answered with the
200 welcome text, not 405 — `handleRoot` never inspects the method. -/
theorem root_post_not_method_not_allowed :
    serveMux NewTaskStore "POST" "/" none = (NewTaskStore, Response.text 200) ∧
    serveMux NewTaskStore "POST" "/" none ≠ (NewTaskStore, Response.text 405) := by
  refine ⟨?_, ?_⟩ <;> decide

/-- C9 amended: on `/api/tasks` every method other than GET and POST is
answered 405, and on any `/api/tasks/`-prefixed path every method other
than PUT and DELETE is answered 405; the root path `/`, however, answers
200 to every method (its handler never checks the method). -/
theorem known_path_method_discipline (s : TaskStore) (method path : String)
    (body : Option Task) :
    (method ≠ "GET" → method ≠ "POST" →
        serveMux s method "/api/tasks" body = (s, Response.text 405)) ∧
    (goHasPrefix path "/api/tasks/" = true → method ≠ "PUT" → method ≠ "DELETE" →
        serveMux s method path body = (s, Response.text 405)) ∧
    serveMux s method "/" body = (s, Response.text 200) := by
  refine ⟨?_, ?_, ?_⟩
  · intro h1 h2
    simp only [serveMux, reduceIte]
    rw [if_neg h1, if_neg h2]
  · intro hpre h1 h2
    have hne : path ≠ "/api/tasks" := by
      intro he
      rw [he] at hpre
      exact absurd hpre (by decide)
    simp only [serveMux]
    rw [if_neg hne, if_pos hpre, if_neg h1, if_neg h2]
  · rfl

/-- Witness for C9: PATCH on /api/tasks and POST on /api/tasks/5 are both
answered 405. -/
theorem known_path_method_discipline_witness :
    serveMux NewTaskStore "PATCH" "/api/tasks" none = (NewTaskStore, Response.text 405) ∧
    serveMux NewTaskStore "POST" "/api/tasks/5" none = (NewTaskStore, Response.text 405) :=
  ⟨(known_path_method_discipline NewTaskStore "PATCH" "/api/tasks/5" none).1
      (by decide) (by decide),
   (known_path_method_discipline NewTaskStore "POST" "/api/tasks/5" none).2.1
      (by decide) (by decide) (by decide)⟩

/-- C10: create overwrites whatever id the client sent: the stored and
returned record carries the store's current next id, and the handler
answers 201 with that record. -/
theorem create_ignores_client_id (s : TaskStore) (t : Task) :
    (createTask s t).2.id = s.nextID ∧
    (createTask s t).2 = { id := s.nextID, title := t.title, completed := t.completed } ∧
    mapGet (createTask s t).1.tasks s.nextID = some (createTask s t).2 ∧
    serveMux s "POST" "/api/tasks" (some t) =
      ((createTask s t).1, Response.json 201 (createTask s t).2) := by
  refine ⟨rfl, rfl, mapGet_mapSet_self _ _ _, ?_⟩
  simp [serveMux, handleCreateTask]

/-- Witness for C10: a body claiming id 999 is stored with id 1 on the
fresh store. -/
theorem create_ignores_client_id_witness :
    (createTask NewTaskStore { id := 999, title := "w", completed := false }).2.id = 1 :=
  (create_ignores_client_id NewTaskStore { id := 999, title := "w", completed := false }).1

end TodoList
